import Mathlib

/-!
Shallow embedding of the segment-capture engine of `twitcharchiver/downloaders/stream.py`
(repository helmut1337/twitch-archiver), together with proofs checking the
natural-language specification against it.

Modelling conventions:
* Python floats (timestamps, durations) are modelled as `ℚ`; the arithmetic the
  claims exercise is exact on small values.
* The Python `dict` `segments` is modelled as an insertion-ordered association
  list `List (Int × StreamSegment)`: assigning to an existing key replaces the
  value in place, assigning to a fresh key appends it at the end — exactly the
  observable behaviour of a Python `dict`.
* Python sets whose elements hash and compare by a single field are modelled as
  lists of those field values with membership-guarded insertion.
* Network effects are passed in as explicit oracles (a function from a part to
  its fetch outcome, or a constructor describing the manifest fetch outcome).
-/

namespace TwitchArchiver

/-- Model of `StreamSegment.Part.__init__`: a part of a segment, with
`url`, `timestamp` (unix seconds), `duration` and `title`. -/
structure StreamSegment.Part where
  url : String
  timestamp : ℚ
  duration : ℚ
  title : String
deriving DecidableEq

/-- Model of `StreamSegment.Part.__eq__` / `__hash__`: equality of parts is
`self.url == other.url` (hash is `hash(self.url)`). -/
def StreamSegment.Part.partEq (p other : StreamSegment.Part) : Bool :=
  p.url == other.url

/-- Model of `StreamSegment.__init__`: a video segment made up of parts,
with its id and cumulative duration. -/
structure StreamSegment where
  id : Int
  parts : List StreamSegment.Part
  duration : ℚ
deriving DecidableEq

/-- Model of `StreamSegment(segment_id)`: a freshly constructed segment
(`parts = []`, `duration = 0`). -/
def StreamSegment.new (segmentId : Int) : StreamSegment :=
  ⟨segmentId, [], 0⟩

/-- Model of `StreamSegment.add_part`: appends the part and adds its duration. -/
def StreamSegment.addPart (s : StreamSegment) (p : StreamSegment.Part) : StreamSegment :=
  { s with parts := s.parts ++ [p], duration := s.duration + p.duration }

/-- Model of `StreamSegment.is_full`: true iff the segment holds exactly 5 parts. -/
def StreamSegment.isFull (s : StreamSegment) : Bool :=
  s.parts.length == 5

/-- Lookup in the insertion-ordered dictionary (`self.segments[i]` /
`i in self.segments.keys()`). -/
def lookupSeg : List (Int × StreamSegment) → Int → Option StreamSegment
  | [], _ => none
  | (k, v) :: rest, i => if k = i then some v else lookupSeg rest i

/-- Dictionary assignment `self.segments[i] = v`: replaces in place when the
key exists, otherwise appends the new key at the end (Python `dict` order). -/
def setSeg : List (Int × StreamSegment) → Int → StreamSegment → List (Int × StreamSegment)
  | [], i, v => [(i, v)]
  | (k, w) :: rest, i, v =>
    if k = i then (i, v) :: rest else (k, w) :: setSeg rest i v

/-- Dictionary removal `self.segments.pop(i)` (the remaining entries). -/
def eraseSeg : List (Int × StreamSegment) → Int → List (Int × StreamSegment)
  | [], _ => []
  | (k, w) :: rest, i => if k = i then rest else (k, w) :: eraseSeg rest i

/-- The keys of the dictionary, in insertion (= creation) order. -/
def keysOf (l : List (Int × StreamSegment)) : List Int :=
  l.map Prod.fst

/-- Model of `StreamSegmentList.__init__`: registry of in-progress segments. -/
structure StreamSegmentList where
  segments : List (Int × StreamSegment)
  currentId : Int
  alignSegments : Bool
  streamCreatedAt : ℚ
deriving DecidableEq

/-- Model of `StreamSegmentList(stream_created_at, align_segments, start_id)`:
`segments = {}`, `current_id = start_id + 1`. -/
def StreamSegmentList.new (streamCreatedAt : ℚ) (alignSegments : Bool) (startId : Int) :
    StreamSegmentList :=
  ⟨[], startId + 1, alignSegments, streamCreatedAt⟩

/-- Model of `StreamSegmentList._get_id_for_part`: id of a part from its timestamp and
the stream creation time, `floor((4 + (part.timestamp - stream_created_at)) / 10)`. -/
def StreamSegmentList.getIdForPart (sl : StreamSegmentList) (p : StreamSegment.Part) : Int :=
  Int.floor ((4 + (p.timestamp - sl.streamCreatedAt)) / 10)

/-- The target segment id `add_part` computes for a part: the timestamp-derived
id in alignment mode, otherwise `current_id`. -/
def StreamSegmentList.targetId (sl : StreamSegmentList) (p : StreamSegment.Part) : Int :=
  if sl.alignSegments then sl.getIdForPart p else sl.currentId

/-- Model of `StreamSegmentList.add_part`. -/
def StreamSegmentList.addPart (sl : StreamSegmentList) (p : StreamSegment.Part) :
    StreamSegmentList :=
  -- generate part id from timestamp if aligning, else use the current id
  let pid0 := sl.targetId p
  -- create parent segment if one doesn't yet exist
  let sl1 := if (lookupSeg sl.segments pid0).isSome then sl else
    { sl with currentId := pid0,
              segments := setSeg sl.segments pid0 (StreamSegment.new pid0) }
  -- create new segment and increment id if current segment complete
  -- (the key `pid0` is present in `sl1` here, so the default is never used)
  let full := ((lookupSeg sl1.segments pid0).getD (StreamSegment.new pid0)).parts.length == 5
  let pid := if full then pid0 + 1 else pid0
  let sl2 := if full then
    { sl1 with currentId := pid,
               segments := setSeg sl1.segments pid (StreamSegment.new pid) }
    else sl1
  -- append part to parent segment
  let appended := ((lookupSeg sl2.segments pid).getD (StreamSegment.new pid)).addPart p
  { sl2 with segments := setSeg sl2.segments pid appended }

/-- Model of `StreamSegmentList.is_segment_present`. -/
def StreamSegmentList.isSegmentPresent (sl : StreamSegmentList) (segmentId : Int) : Bool :=
  (lookupSeg sl.segments segmentId).isSome

/-- Model of `StreamSegmentList.get_segment_by_id` (`KeyError` on a missing id is
modelled as `none`). -/
def StreamSegmentList.getSegmentById (sl : StreamSegmentList) (segmentId : Int) :
    Option StreamSegment :=
  lookupSeg sl.segments segmentId

/-- Model of `StreamSegmentList.pop_segment`: removes and returns the segment
(`KeyError` on a missing id is modelled as `none`). -/
def StreamSegmentList.popSegment (sl : StreamSegmentList) (segId : Int) :
    Option (StreamSegment × StreamSegmentList) :=
  match lookupSeg sl.segments segId with
  | none => none
  | some s => some (s, { sl with segments := eraseSeg sl.segments segId })

/-! ### Stream-level operations (`class Stream`) -/

/-- Set insertion for a Python `set` whose elements hash and compare by a
string key (`_unsupported_parts` is a set of `Part`s, and `Part.__hash__` /
`__eq__` use only `url`, so the set is semantically a set of urls). -/
def insertStr (s : List String) (u : String) : List String :=
  if u ∈ s then s else s ++ [u]

/-- Model of `Stream._build_download_queue`, recursion over the incoming part buffer
with the `_unsupported_parts` url-set as accumulator.  `Except.error ()` is the
raised `UnsupportedStreamPartDuration`. -/
def buildDownloadQueueGo : List StreamSegment.Part → List String → StreamSegmentList →
    Except Unit StreamSegmentList
  | [], _, q => .ok q
  | p :: rest, uns, q =>
    -- block advertisement parts
    if p.title ≠ "live" then buildDownloadQueueGo rest uns q
    else
      -- flag parts with a duration other than 2.0 when aligning segments
      let uns' := if q.alignSegments && (p.duration != 2) then insertStr uns p.url else uns
      if 1 < uns'.length then .error ()
      -- add part to segment download queue
      else buildDownloadQueueGo rest uns' (q.addPart p)

/-- Model of `Stream._build_download_queue` on the whole incoming part buffer
(`_unsupported_parts` starts out empty). -/
def buildDownloadQueue (buffer : List StreamSegment.Part) (q : StreamSegmentList) :
    Except Unit StreamSegmentList :=
  buildDownloadQueueGo buffer [] q

/-- Model of `StreamSegmentList.get_completed_segment_ids`: gathers the ids of all
segments with 5 parts — but reads `self.segments[_segment].v_id`, an attribute
`StreamSegment` never defines (it defines `id`), so the first complete segment
raises `AttributeError` (modelled as `Except.error ()`); with no complete
segment the loop adds nothing and the empty set is returned. -/
def StreamSegmentList.getCompletedSegmentIds (sl : StreamSegmentList) :
    Except Unit (List Int) :=
  if sl.segments.any (fun kv => kv.2.parts.length == 5) then .error () else .ok []

/-- The session-scoped buffers of `Stream` touched by one download pass. -/
structure Session where
  processedParts : List StreamSegment.Part
  incomingPartBuffer : List StreamSegment.Part
  downloadQueue : Option StreamSegmentList
deriving DecidableEq

/-- The dedup-and-buffer loop of `Stream._fetch_advertised_parts`: each
advertised part not in `_processed_parts` (membership by `Part.__eq__`, i.e.
url) is added to the processed set and appended to the incoming buffer. -/
def fetchAdvertisedParts (st : Session) (advertised : List StreamSegment.Part) : Session :=
  advertised.foldl
    (fun s p =>
      if s.processedParts.any (fun q => q.partEq p) then s
      else { s with processedParts := s.processedParts ++ [p],
                    incomingPartBuffer := s.incomingPartBuffer ++ [p] })
    st

/-- Outcome of the manifest fetch inside one pass: a parsed part list, the
`TwitchAPIErrorNotFound` raised when the broadcast ended, or any other
exception. -/
inductive ManifestFetch where
  | ok (parts : List StreamSegment.Part)
  | notFound
  | otherFailure
deriving DecidableEq

/-- Model of `Stream._get_final_segment`: downloads the segment at `current_id` if it
is present; returns the segment it flushes (if any). -/
def StreamSegmentList.finalSegmentFlush (q : StreamSegmentList) : Option StreamSegment :=
  if q.isSegmentPresent q.currentId then q.getSegmentById q.currentId else none

/-- Model of `Stream.single_download_pass` over an explicit manifest-fetch outcome.
Returns the updated session and the list of segments `_download_segment` was
called on, or `Except.error ()` for the `StreamDownloadError` the wrapper
raises from any exception other than `TwitchAPIErrorNotFound`. -/
def singleDownloadPass (st : Session) (m : ManifestFetch) :
    Except Unit (Session × List StreamSegment) :=
  match m with
  | .ok parts =>
    let st1 := fetchAdvertisedParts st parts
    match st1.downloadQueue with
    -- `self._download_queue` is `None` only before `_do_setup` finishes;
    -- `add_part` on it would raise, wrapped into `StreamDownloadError`
    | none => .error ()
    | some q =>
      match buildDownloadQueue st1.incomingPartBuffer q with
      -- `UnsupportedStreamPartDuration` is wrapped into `StreamDownloadError`
      | .error _ => .error ()
      | .ok q' =>
        match q'.getCompletedSegmentIds with
        -- the `AttributeError` on `.v_id` is wrapped into `StreamDownloadError`
        | .error _ => .error ()
        | .ok _ => .ok ({ st1 with incomingPartBuffer := [], downloadQueue := some q' }, [])
  | .notFound =>
    -- stream offline: log, and flush the final segment if a queue exists
    match st.downloadQueue with
    | some q => .ok (st, q.finalSegmentFlush.toList)
    | none => .ok (st, [])
  | .otherFailure => .error ()

/-! ### Segment fetcher (`Stream._download_segment`) -/

/-- Outcome of `requests.get` on one part: a raised
`requests.exceptions.RequestException`, or a response with a status code and
body bytes. -/
inductive PartFetchResult where
  | exn
  | response (status : Nat) (body : List Nat)
deriving DecidableEq

/-- The part-writing loop of `Stream._download_segment`: parts are downloaded
in order and appended to the buffer file; a status code other than 200 makes
the whole function return (`none`: the buffer file is never relocated); a
`RequestException` is logged and the loop moves to the next part, leaving that
part's bytes out of the file. -/
def downloadPartsLoop (fetch : StreamSegment.Part → PartFetchResult) :
    List StreamSegment.Part → Option (List Nat)
  | [] => some []
  | p :: rest =>
    match fetch p with
    | .exn => downloadPartsLoop fetch rest
    | .response st body =>
      if st = 200 then (downloadPartsLoop fetch rest).map (fun f => body ++ f)
      else none

/-- Model of `Stream._download_segment`: the bytes of the file relocated into the
output directory as `{segment.id:05d}.ts`, or `none` when no file is
relocated.  The `for _ in range(6)` retry loop is vestigial: its body always
leaves the function on its first iteration (`return` on a non-200 status,
`break` after a successful `safe_move`, or a raised exception), so a single
attempt decides the outcome. -/
def downloadSegmentBytes (fetch : StreamSegment.Part → PartFetchResult)
    (segment : StreamSegment) : Option (List Nat) :=
  match downloadPartsLoop fetch segment.parts with
  | none => none
  | some f => some f

/-! ### Continuous run loop (`Stream.start`) -/

/-- The cadence logic of `Stream.start` over a trace of per-pass wall-clock
durations.  `_start_timestamp` is taken once, before the loop, so `_loop_time`
is `int(now - _start_timestamp)`: the truncated total elapsed time since the
loop began (passes plus earlier sleeps), not the duration of the current pass.
Returns the sleep performed after each pass (`elapsed` starts at 0). -/
def startSleeps : List ℚ → ℚ → List ℚ
  | [], _ => []
  | d :: rest, elapsed =>
    let now := elapsed + d
    let loopTime : Int := Int.floor now
    if loopTime < 4 then ((4 - loopTime : Int) : ℚ) :: startSleeps rest (now + ((4 - loopTime : Int) : ℚ))
    else 0 :: startSleeps rest now

/-! ### Helper lemmas about the insertion-ordered dictionary -/

theorem lookupSeg_setSeg_self (l : List (Int × StreamSegment)) (i : Int) (v : StreamSegment) :
    lookupSeg (setSeg l i v) i = some v := by
  induction l with
  | nil => simp [setSeg, lookupSeg]
  | cons kv rest ih =>
    obtain ⟨k, w⟩ := kv
    by_cases h : k = i <;> simp [setSeg, lookupSeg, h, ih]

theorem keysOf_nil : keysOf [] = [] := rfl

theorem keysOf_cons (kv : Int × StreamSegment) (rest : List (Int × StreamSegment)) :
    keysOf (kv :: rest) = kv.1 :: keysOf rest := rfl

theorem lookupSeg_setSeg_ne (l : List (Int × StreamSegment)) {i j : Int} (h : j ≠ i)
    (v : StreamSegment) : lookupSeg (setSeg l i v) j = lookupSeg l j := by
  induction l with
  | nil => simp [setSeg, lookupSeg, Ne.symm h]
  | cons kv rest ih =>
    obtain ⟨k, w⟩ := kv
    by_cases hk : k = i
    · subst hk
      simp [setSeg, lookupSeg, h, Ne.symm h]
    · simp only [setSeg, if_neg hk, lookupSeg]
      by_cases hkj : k = j <;> simp [hkj, ih]

theorem keysOf_setSeg_of_isSome (l : List (Int × StreamSegment)) (i : Int) (v : StreamSegment)
    (h : (lookupSeg l i).isSome) : keysOf (setSeg l i v) = keysOf l := by
  induction l with
  | nil => simp [lookupSeg] at h
  | cons kv rest ih =>
    obtain ⟨k, w⟩ := kv
    by_cases hk : k = i
    · simp [setSeg, keysOf, hk]
    · simp only [lookupSeg, if_neg hk] at h
      simp [setSeg, keysOf, hk, ih h]
      exact ih h

theorem keysOf_setSeg_of_none (l : List (Int × StreamSegment)) (i : Int) (v : StreamSegment)
    (h : lookupSeg l i = none) : keysOf (setSeg l i v) = keysOf l ++ [i] := by
  induction l with
  | nil => simp [setSeg, keysOf]
  | cons kv rest ih =>
    obtain ⟨k, w⟩ := kv
    by_cases hk : k = i
    · simp [lookupSeg, hk] at h
    · simp only [lookupSeg, if_neg hk] at h
      simp [setSeg, keysOf, hk] at ih ⊢
      exact ih h

theorem lookupSeg_isSome_iff_mem (l : List (Int × StreamSegment)) (i : Int) :
    (lookupSeg l i).isSome ↔ i ∈ keysOf l := by
  induction l with
  | nil => simp [lookupSeg, keysOf]
  | cons kv rest ih =>
    obtain ⟨k, w⟩ := kv
    by_cases hk : k = i
    · subst hk
      simp [lookupSeg, keysOf_cons]
    · simp [lookupSeg, keysOf_cons, hk, ih, Ne.symm hk]

/-! ### Field-preservation lemmas for `add_part` -/

theorem addPart_alignSegments (sl : StreamSegmentList) (p : StreamSegment.Part) :
    (sl.addPart p).alignSegments = sl.alignSegments := by
  simp only [StreamSegmentList.addPart]
  split <;> split <;> rfl

theorem addPart_streamCreatedAt (sl : StreamSegmentList) (p : StreamSegment.Part) :
    (sl.addPart p).streamCreatedAt = sl.streamCreatedAt := by
  simp only [StreamSegmentList.addPart]
  split <;> split <;> rfl

/-! ### Claims -/

/-- Claim C1: for every part added to a SegmentList in alignment mode, the
target segment id `add_part` computes for it equals
`floor((4 + (part.timestamp - stream_created_at)) / 10)`, and this bucketing is
a pure function of the part's timestamp (and the broadcast start time): any
other part with the same timestamp gets the same target id. -/
theorem c1_alignment_target_id (sl : StreamSegmentList) (p q : StreamSegment.Part)
    (h : sl.alignSegments = true) (hq : q.timestamp = p.timestamp) :
    sl.targetId p = Int.floor ((4 + (p.timestamp - sl.streamCreatedAt)) / 10) ∧
    sl.targetId q = sl.targetId p := by
  constructor
  · simp [StreamSegmentList.targetId, h, StreamSegmentList.getIdForPart]
  · simp [StreamSegmentList.targetId, h, StreamSegmentList.getIdForPart, hq]

/-- Witness for C1 at a concrete aligning list and two parts sharing a
timestamp but nothing else. -/
theorem c1_alignment_target_id_witness :
    (StreamSegmentList.new 0 true 0).targetId ⟨"u1", 2, 2, "live"⟩ =
      Int.floor (((4 : ℚ) + ((2 : ℚ) - 0)) / 10) ∧
    (StreamSegmentList.new 0 true 0).targetId ⟨"u2", 2, (3 : ℚ)/2, "ad"⟩ =
      (StreamSegmentList.new 0 true 0).targetId ⟨"u1", 2, 2, "live"⟩ :=
  c1_alignment_target_id (StreamSegmentList.new 0 true 0)
    ⟨"u1", 2, 2, "live"⟩ ⟨"u2", 2, (3 : ℚ)/2, "ad"⟩ rfl rfl

/-- Claim C3: if `add_part` computes a target segment id whose segment already
holds exactly 5 parts, the part is placed in a newly created segment with id
`target + 1` (holding only that part), and the full segment at `target` is
left unchanged. -/
theorem c3_full_segment_overflow (sl : StreamSegmentList) (p : StreamSegment.Part)
    (s : StreamSegment) (h1 : lookupSeg sl.segments (sl.targetId p) = some s)
    (h2 : s.parts.length = 5) :
    lookupSeg (sl.addPart p).segments (sl.targetId p + 1) =
      some ⟨sl.targetId p + 1, [p], p.duration⟩ ∧
    lookupSeg (sl.addPart p).segments (sl.targetId p) = some s := by
  have hne : sl.targetId p ≠ sl.targetId p + 1 := by omega
  constructor
  · simp [StreamSegmentList.addPart, h1, h2, lookupSeg_setSeg_self,
      StreamSegment.new, StreamSegment.addPart]
  · simp only [StreamSegmentList.addPart, h1, Option.isSome_some, if_true, Option.getD_some, h2]
    norm_num [lookupSeg_setSeg_self]
    rw [lookupSeg_setSeg_ne _ hne, lookupSeg_setSeg_ne _ hne, h1]

/-- Five parts filling one segment, used for concrete instances. -/
def fiveParts : List StreamSegment.Part :=
  [⟨"a1", 2, 2, "live"⟩, ⟨"a2", 4, 2, "live"⟩, ⟨"a3", 6, 2, "live"⟩,
   ⟨"a4", 8, 2, "live"⟩, ⟨"a5", 10, 2, "live"⟩]

/-- A non-aligning list whose current segment (id 1) is full. -/
def fullList : StreamSegmentList := ⟨[(1, ⟨1, fiveParts, 10⟩)], 1, false, 0⟩

/-- Witness for C3: a 6th part arriving at a full segment lands alone in the
newly created segment 2 and segment 1 keeps its five parts. -/
theorem c3_full_segment_overflow_witness :
    lookupSeg (fullList.addPart ⟨"a6", 12, 2, "live"⟩).segments
        (fullList.targetId ⟨"a6", 12, 2, "live"⟩ + 1) =
      some ⟨fullList.targetId ⟨"a6", 12, 2, "live"⟩ + 1, [⟨"a6", 12, 2, "live"⟩],
        (⟨"a6", 12, 2, "live"⟩ : StreamSegment.Part).duration⟩ ∧
    lookupSeg (fullList.addPart ⟨"a6", 12, 2, "live"⟩).segments
        (fullList.targetId ⟨"a6", 12, 2, "live"⟩) = some ⟨1, fiveParts, 10⟩ :=
  c3_full_segment_overflow fullList ⟨"a6", 12, 2, "live"⟩ ⟨1, fiveParts, 10⟩ rfl rfl

/-- Claim C5, amended: an `add_part` call preserves the parts of every
existing segment (leaving them unchanged or appending the new part at the
end), EXCEPT that when the target segment is full, an existing segment at
`target + 1` is overwritten by a fresh segment holding only the new part,
discarding its previous parts. -/
theorem c5_parts_preserved_except_overflow (sl : StreamSegmentList)
    (p : StreamSegment.Part) (i : Int) (s : StreamSegment)
    (h : lookupSeg sl.segments i = some s) :
    (((lookupSeg sl.segments (sl.targetId p)).getD
          (StreamSegment.new (sl.targetId p))).parts.length = 5 ∧
      i = sl.targetId p + 1 ∧
      lookupSeg (sl.addPart p).segments i = some ⟨i, [p], p.duration⟩) ∨
    (∃ s', lookupSeg (sl.addPart p).segments i = some s' ∧
      (s'.parts = s.parts ∨ s'.parts = s.parts ++ [p])) := by
  by_cases hc : (lookupSeg sl.segments (sl.targetId p)).isSome
  · obtain ⟨st, hst⟩ := Option.isSome_iff_exists.mp hc
    by_cases hfull : st.parts.length = 5
    · -- target present and full: the part goes to a fresh segment at target+1
      by_cases hi : i = sl.targetId p + 1
      · left
        subst hi
        refine ⟨by simp [hst, hfull], rfl, ?_⟩
        simp [StreamSegmentList.addPart, hst, hfull, lookupSeg_setSeg_self,
          StreamSegment.new, StreamSegment.addPart]
      · right
        have hne : i ≠ sl.targetId p + 1 := hi
        refine ⟨s, ?_, Or.inl rfl⟩
        by_cases hit : i = sl.targetId p
        · subst hit
          have hss : s = st := by
            rw [h] at hst
            exact Option.some_inj.mp hst
          subst hss
          simp [StreamSegmentList.addPart, hst, hfull, lookupSeg_setSeg_ne _ hne, h]
        · simp [StreamSegmentList.addPart, hst, hfull, lookupSeg_setSeg_ne _ hne, h]
    · -- target present, not full: the part is appended to the target segment
      right
      by_cases hit : i = sl.targetId p
      · subst hit
        rw [h] at hst
        obtain rfl : s = st := by injection hst
        refine ⟨s.addPart p, ?_, Or.inr ?_⟩
        · simp [StreamSegmentList.addPart, h, hfull, lookupSeg_setSeg_self]
        · simp [StreamSegment.addPart]
      · refine ⟨s, ?_, Or.inl rfl⟩
        simp [StreamSegmentList.addPart, hst, hfull, lookupSeg_setSeg_ne _ hit, h]
  · -- target absent: it is created empty, the part is appended to it
    right
    have hit : i ≠ sl.targetId p := by
      intro hi
      subst hi
      rw [h] at hc
      simp at hc
    refine ⟨s, ?_, Or.inl rfl⟩
    have hnone : lookupSeg sl.segments (sl.targetId p) = none :=
      Option.not_isSome_iff_eq_none.mp hc
    simp [StreamSegmentList.addPart, hnone, StreamSegment.new,
      lookupSeg_setSeg_self, lookupSeg_setSeg_ne _ hit, h]

/-! ### Shape of `add_part` in each of its three cases -/

theorem addPart_shape_present_notfull {sl : StreamSegmentList} {p : StreamSegment.Part}
    {st : StreamSegment} (hst : lookupSeg sl.segments (sl.targetId p) = some st)
    (hfull : st.parts.length ≠ 5) :
    (sl.addPart p).segments = setSeg sl.segments (sl.targetId p) (st.addPart p) ∧
    (sl.addPart p).currentId = sl.currentId := by
  constructor <;> simp [StreamSegmentList.addPart, hst, hfull]

theorem addPart_shape_present_full {sl : StreamSegmentList} {p : StreamSegment.Part}
    {st : StreamSegment} (hst : lookupSeg sl.segments (sl.targetId p) = some st)
    (hfull : st.parts.length = 5) :
    (sl.addPart p).segments =
      setSeg (setSeg sl.segments (sl.targetId p + 1) (StreamSegment.new (sl.targetId p + 1)))
        (sl.targetId p + 1) ((StreamSegment.new (sl.targetId p + 1)).addPart p) ∧
    (sl.addPart p).currentId = sl.targetId p + 1 := by
  constructor <;> simp [StreamSegmentList.addPart, hst, hfull, lookupSeg_setSeg_self]

theorem addPart_shape_absent {sl : StreamSegmentList} {p : StreamSegment.Part}
    (hnone : lookupSeg sl.segments (sl.targetId p) = none) :
    (sl.addPart p).segments =
      setSeg (setSeg sl.segments (sl.targetId p) (StreamSegment.new (sl.targetId p)))
        (sl.targetId p) ((StreamSegment.new (sl.targetId p)).addPart p) ∧
    (sl.addPart p).currentId = sl.targetId p := by
  constructor <;>
    simp [StreamSegmentList.addPart, hnone, lookupSeg_setSeg_self, StreamSegment.new]

/-! ### The creation-order invariant (claim C4) -/

/-- Segment ids have been created in strictly increasing first-arrival order,
every created id is at most `current_id`, and `current_id` is the most
recently created id. -/
def SegListInv (sl : StreamSegmentList) : Prop :=
  List.Chain' (fun a b => a < b) (keysOf sl.segments) ∧
  (∀ k ∈ keysOf sl.segments, k ≤ sl.currentId) ∧
  (sl.segments ≠ [] → (keysOf sl.segments).getLast? = some sl.currentId)

theorem keysOf_eq_nil_iff (l : List (Int × StreamSegment)) : keysOf l = [] ↔ l = [] := by
  cases l <;> simp [keysOf]

theorem addPart_inv {sl : StreamSegmentList} (p : StreamSegment.Part) (hInv : SegListInv sl)
    (hle : sl.currentId ≤ sl.targetId p) : SegListInv (sl.addPart p) := by
  obtain ⟨hchain, hub, hlast⟩ := hInv
  by_cases hc : (lookupSeg sl.segments (sl.targetId p)).isSome
  · obtain ⟨st, hst⟩ := Option.isSome_iff_exists.mp hc
    have hmem : sl.targetId p ∈ keysOf sl.segments :=
      (lookupSeg_isSome_iff_mem _ _).mp hc
    have hne : sl.segments ≠ [] := by
      intro hnil
      rw [hnil] at hmem
      simp [keysOf] at hmem
    have heq : sl.targetId p = sl.currentId := le_antisymm (hub _ hmem) hle
    by_cases hfull : st.parts.length = 5
    · -- full: a fresh segment is appended at target + 1
      obtain ⟨hseg, hcur⟩ := addPart_shape_present_full hst hfull
      have hnone1 : lookupSeg sl.segments (sl.targetId p + 1) = none := by
        rw [← Option.not_isSome_iff_eq_none]
        intro hs
        have := hub _ ((lookupSeg_isSome_iff_mem _ _).mp hs)
        omega
      have hkeys : keysOf (sl.addPart p).segments =
          keysOf sl.segments ++ [sl.targetId p + 1] := by
        rw [hseg, keysOf_setSeg_of_isSome, keysOf_setSeg_of_none _ _ _ hnone1]
        simp [lookupSeg_setSeg_self]
      refine ⟨?_, ?_, ?_⟩
      · rw [hkeys, List.chain'_append]
        refine ⟨hchain, by simp, ?_⟩
        intro x hx y hy
        simp at hy
        rw [hlast hne] at hx
        simp at hx
        omega
      · intro k hk
        rw [hkeys] at hk
        rw [hcur]
        rcases List.mem_append.mp hk with hk | hk
        · have := hub _ hk
          omega
        · simp at hk
          omega
      · intro _
        rw [hkeys, hcur, List.getLast?_concat]
    · -- not full: the part is appended to an existing segment, keys unchanged
      obtain ⟨hseg, hcur⟩ := addPart_shape_present_notfull hst hfull
      have hkeys : keysOf (sl.addPart p).segments = keysOf sl.segments := by
        rw [hseg, keysOf_setSeg_of_isSome]
        exact hc
      refine ⟨?_, ?_, ?_⟩
      · rw [hkeys]; exact hchain
      · intro k hk
        rw [hkeys] at hk
        rw [hcur]
        exact hub _ hk
      · intro h'
        rw [hkeys, hcur]
        exact hlast hne
  · -- absent: the target id is appended as a new key
    have hnone : lookupSeg sl.segments (sl.targetId p) = none :=
      Option.not_isSome_iff_eq_none.mp hc
    have hnotmem : sl.targetId p ∉ keysOf sl.segments := by
      rw [← lookupSeg_isSome_iff_mem, hnone]
      simp
    obtain ⟨hseg, hcur⟩ := addPart_shape_absent hnone
    have hkeys : keysOf (sl.addPart p).segments =
        keysOf sl.segments ++ [sl.targetId p] := by
      rw [hseg, keysOf_setSeg_of_isSome, keysOf_setSeg_of_none _ _ _ hnone]
      simp [lookupSeg_setSeg_self]
    refine ⟨?_, ?_, ?_⟩
    · rw [hkeys, List.chain'_append]
      refine ⟨hchain, by simp, ?_⟩
      intro x hx y hy
      simp at hy
      subst hy
      have hxm : x ∈ keysOf sl.segments := by
        obtain ⟨hne', hx'⟩ := List.mem_getLast?_eq_getLast hx
        rw [hx']
        exact List.getLast_mem hne'
      have hx1 : x ≤ sl.currentId := hub _ hxm
      have hxt : x ≠ sl.targetId p := by
        intro h'
        exact hnotmem (h' ▸ hxm)
      omega
    · intro k hk
      rw [hkeys] at hk
      rw [hcur]
      rcases List.mem_append.mp hk with hk | hk
      · have := hub _ hk
        omega
      · simp at hk
        omega
    · intro _
      rw [hkeys, hcur, List.getLast?_concat]

theorem foldl_addPart_inv (parts : List StreamSegment.Part) (sl : StreamSegmentList)
    (hInv : SegListInv sl) (halign : sl.alignSegments = false) :
    SegListInv (parts.foldl StreamSegmentList.addPart sl) := by
  induction parts generalizing sl with
  | nil => exact hInv
  | cons p rest ih =>
    simp only [List.foldl_cons]
    refine ih _ (addPart_inv p hInv ?_) ?_
    · simp [StreamSegmentList.targetId, halign]
    · rw [addPart_alignSegments]
      exact halign

/-- Claim C4, amended: after any sequence of `add_part` calls on a
non-aligning SegmentList, segment ids are created in strictly increasing
first-arrival order, every created id is at most `current_id`, and
`current_id` is the most recently (equivalently: highest) created id.  In
alignment mode the original claim fails when a part's computed id is below
the current id (see the counterexample). -/
theorem c4_nonaligned_creation_order (parts : List StreamSegment.Part) (c : ℚ) (s0 : Int) :
    List.Chain' (fun a b => a < b)
      (keysOf (parts.foldl StreamSegmentList.addPart (StreamSegmentList.new c false s0)).segments) ∧
    (∀ k ∈ keysOf (parts.foldl StreamSegmentList.addPart (StreamSegmentList.new c false s0)).segments,
      k ≤ (parts.foldl StreamSegmentList.addPart (StreamSegmentList.new c false s0)).currentId) ∧
    ((parts.foldl StreamSegmentList.addPart (StreamSegmentList.new c false s0)).segments ≠ [] →
      (keysOf (parts.foldl StreamSegmentList.addPart (StreamSegmentList.new c false s0)).segments).getLast? =
        some (parts.foldl StreamSegmentList.addPart (StreamSegmentList.new c false s0)).currentId) :=
  foldl_addPart_inv parts (StreamSegmentList.new c false s0)
    ⟨by simp [StreamSegmentList.new, keysOf], by simp [StreamSegmentList.new, keysOf],
     by simp [StreamSegmentList.new]⟩ rfl

/-- Six parts: `fiveParts` followed by a sixth. -/
def sixParts : List StreamSegment.Part := fiveParts ++ [⟨"a6", 12, 2, "live"⟩]

/-- Witness for C4 (amended) at a concrete part list. -/
theorem c4_nonaligned_creation_order_witness :
    List.Chain' (fun a b => a < b)
      (keysOf (sixParts.foldl StreamSegmentList.addPart
        (StreamSegmentList.new 0 false 0)).segments) ∧
    (∀ k ∈ keysOf (sixParts.foldl StreamSegmentList.addPart
        (StreamSegmentList.new 0 false 0)).segments,
      k ≤ (sixParts.foldl StreamSegmentList.addPart
        (StreamSegmentList.new 0 false 0)).currentId) ∧
    ((sixParts.foldl StreamSegmentList.addPart
        (StreamSegmentList.new 0 false 0)).segments ≠ [] →
      (keysOf (sixParts.foldl StreamSegmentList.addPart
        (StreamSegmentList.new 0 false 0)).segments).getLast? =
        some (sixParts.foldl StreamSegmentList.addPart
          (StreamSegmentList.new 0 false 0)).currentId) :=
  c4_nonaligned_creation_order sixParts 0 0

/-- Counterexample to C4 as stated: in alignment mode, a part whose timestamp
maps to id 6 followed by one mapping to id 3 creates ids in decreasing order
`[6, 3]`, and `current_id` ends at 3 although the highest id ever created
is 6. -/
theorem c4_counterexample :
    keysOf (((StreamSegmentList.new 0 true 0).addPart ⟨"A", 56, 2, "live"⟩).addPart
        ⟨"B", 26, 2, "live"⟩).segments = [6, 3] ∧
    (((StreamSegmentList.new 0 true 0).addPart ⟨"A", 56, 2, "live"⟩).addPart
        ⟨"B", 26, 2, "live"⟩).currentId = 3 ∧
    ¬ (∀ k ∈ keysOf (((StreamSegmentList.new 0 true 0).addPart ⟨"A", 56, 2, "live"⟩).addPart
        ⟨"B", 26, 2, "live"⟩).segments,
        k ≤ (((StreamSegmentList.new 0 true 0).addPart ⟨"A", 56, 2, "live"⟩).addPart
          ⟨"B", 26, 2, "live"⟩).currentId) := by
  refine ⟨?_, ?_, ?_⟩
  · norm_num [StreamSegmentList.new, StreamSegmentList.addPart, StreamSegmentList.targetId,
      StreamSegmentList.getIdForPart, StreamSegment.new, StreamSegment.addPart,
      lookupSeg, setSeg, keysOf]
  · norm_num [StreamSegmentList.new, StreamSegmentList.addPart, StreamSegmentList.targetId,
      StreamSegmentList.getIdForPart, StreamSegment.new, StreamSegment.addPart,
      lookupSeg, setSeg, keysOf]
  · intro hall
    have h6 : (6 : Int) ∈ keysOf (((StreamSegmentList.new 0 true 0).addPart
        ⟨"A", 56, 2, "live"⟩).addPart ⟨"B", 26, 2, "live"⟩).segments := by
      norm_num [StreamSegmentList.new, StreamSegmentList.addPart, StreamSegmentList.targetId,
        StreamSegmentList.getIdForPart, StreamSegment.new, StreamSegment.addPart,
        lookupSeg, setSeg, keysOf]
    have hcur := hall 6 h6
    have h3 : (((StreamSegmentList.new 0 true 0).addPart ⟨"A", 56, 2, "live"⟩).addPart
        ⟨"B", 26, 2, "live"⟩).currentId = 3 := by
      norm_num [StreamSegmentList.new, StreamSegmentList.addPart, StreamSegmentList.targetId,
        StreamSegmentList.getIdForPart, StreamSegment.new, StreamSegment.addPart,
        lookupSeg, setSeg, keysOf]
    omega

/-- Witness for C5 (amended) at a concrete list and part. -/
theorem c5_parts_preserved_except_overflow_witness :
    (((lookupSeg fullList.segments (fullList.targetId ⟨"a6", 12, 2, "live"⟩)).getD
          (StreamSegment.new (fullList.targetId ⟨"a6", 12, 2, "live"⟩))).parts.length = 5 ∧
      (1 : Int) = fullList.targetId ⟨"a6", 12, 2, "live"⟩ + 1 ∧
      lookupSeg (fullList.addPart ⟨"a6", 12, 2, "live"⟩).segments 1 =
        some ⟨1, [⟨"a6", 12, 2, "live"⟩], (⟨"a6", 12, 2, "live"⟩ : StreamSegment.Part).duration⟩) ∨
    (∃ s', lookupSeg (fullList.addPart ⟨"a6", 12, 2, "live"⟩).segments 1 = some s' ∧
      (s'.parts = (⟨1, fiveParts, 10⟩ : StreamSegment).parts ∨
       s'.parts = (⟨1, fiveParts, 10⟩ : StreamSegment).parts ++ [⟨"a6", 12, 2, "live"⟩])) :=
  c5_parts_preserved_except_overflow fullList ⟨"a6", 12, 2, "live"⟩ 1 ⟨1, fiveParts, 10⟩ rfl

/-- Counterexample to C5 as stated: with alignment on, five parts fill
segment 1, a part at timestamp 16 creates segment 2 holding it, and a part
at timestamp 15 (mapping to the full segment 1) makes `add_part` overwrite
segment 2 with a fresh segment — discarding the part `"q"` segment 2 held. -/
theorem c5_counterexample :
    (lookupSeg (([⟨"b1", 6, 2, "live"⟩, ⟨"b2", 8, 2, "live"⟩, ⟨"b3", 10, 2, "live"⟩,
          ⟨"b4", 12, 2, "live"⟩, ⟨"b5", 14, 2, "live"⟩, ⟨"q", 16, 2, "live"⟩].foldl
          StreamSegmentList.addPart (StreamSegmentList.new 0 true 0)).segments) 2).map
        (fun s => s.parts.map (fun pp => pp.url)) = some ["q"] ∧
    (lookupSeg ((([⟨"b1", 6, 2, "live"⟩, ⟨"b2", 8, 2, "live"⟩, ⟨"b3", 10, 2, "live"⟩,
          ⟨"b4", 12, 2, "live"⟩, ⟨"b5", 14, 2, "live"⟩, ⟨"q", 16, 2, "live"⟩].foldl
          StreamSegmentList.addPart (StreamSegmentList.new 0 true 0)).addPart
          ⟨"r", 15, 2, "live"⟩).segments) 2).map
        (fun s => s.parts.map (fun pp => pp.url)) = some ["r"] := by
  constructor <;>
    norm_num [StreamSegmentList.new, StreamSegmentList.addPart, StreamSegmentList.targetId,
      StreamSegmentList.getIdForPart, StreamSegment.new, StreamSegment.addPart,
      lookupSeg, setSeg, List.foldl]

/-- Counterexample to C8 as stated: with `started_at = 0`, the part at
timestamp `0 + 2` maps to segment id 0 (not 1), and after feeding all five
parts, segment 1 holds only 3 parts and is not full. -/
theorem c8_counterexample :
    (StreamSegmentList.new 0 true 0).getIdForPart ⟨"p1", 2, 2, "live"⟩ = 0 ∧
    (lookupSeg (([⟨"p1", 2, 2, "live"⟩, ⟨"p2", 4, 2, "live"⟩, ⟨"p3", 6, 2, "live"⟩,
          ⟨"p4", 8, 2, "live"⟩, ⟨"p5", 10, 2, "live"⟩].foldl
          StreamSegmentList.addPart (StreamSegmentList.new 0 true 0)).segments) 1).map
        (fun s => (s.parts.length, s.isFull)) = some (3, false) := by
  constructor <;>
    norm_num [StreamSegmentList.new, StreamSegmentList.addPart, StreamSegmentList.targetId,
      StreamSegmentList.getIdForPart, StreamSegment.new, StreamSegment.addPart,
      StreamSegment.isFull, lookupSeg, setSeg, List.foldl]

/-- Claim C8, amended: given `started_at = T` and five parts labeled `live`
at timestamps `T+2, T+4, T+6, T+8, T+10` with duration 2.0 each, the first
two map to segment id 0 and the last three to segment id 1; after feeding
them to an aligning SegmentList, segment 0 holds the first two parts
(duration 4.0) and segment 1 holds the last three (duration 6.0), and
neither segment is full. -/
theorem c8_phase_offset_buckets (T : ℚ) :
    (StreamSegmentList.new T true 0).getIdForPart ⟨"p1", T + 2, 2, "live"⟩ = 0 ∧
    (StreamSegmentList.new T true 0).getIdForPart ⟨"p2", T + 4, 2, "live"⟩ = 0 ∧
    (StreamSegmentList.new T true 0).getIdForPart ⟨"p3", T + 6, 2, "live"⟩ = 1 ∧
    (StreamSegmentList.new T true 0).getIdForPart ⟨"p4", T + 8, 2, "live"⟩ = 1 ∧
    (StreamSegmentList.new T true 0).getIdForPart ⟨"p5", T + 10, 2, "live"⟩ = 1 ∧
    (lookupSeg (([⟨"p1", T + 2, 2, "live"⟩, ⟨"p2", T + 4, 2, "live"⟩, ⟨"p3", T + 6, 2, "live"⟩,
          ⟨"p4", T + 8, 2, "live"⟩, ⟨"p5", T + 10, 2, "live"⟩].foldl
          StreamSegmentList.addPart (StreamSegmentList.new T true 0)).segments) 0).map
        (fun s => (s.parts.map (fun pp => pp.url), s.duration, s.isFull)) =
      some (["p1", "p2"], 4, false) ∧
    (lookupSeg (([⟨"p1", T + 2, 2, "live"⟩, ⟨"p2", T + 4, 2, "live"⟩, ⟨"p3", T + 6, 2, "live"⟩,
          ⟨"p4", T + 8, 2, "live"⟩, ⟨"p5", T + 10, 2, "live"⟩].foldl
          StreamSegmentList.addPart (StreamSegmentList.new T true 0)).segments) 1).map
        (fun s => (s.parts.map (fun pp => pp.url), s.duration, s.isFull)) =
      some (["p3", "p4", "p5"], 6, false) := by
  have h1 : (StreamSegmentList.new T true 0).addPart ⟨"p1", T + 2, 2, "live"⟩ =
      ⟨[(0, ⟨0, [⟨"p1", T + 2, 2, "live"⟩], 2⟩)], 0, true, T⟩ := by
    norm_num [StreamSegmentList.new, StreamSegmentList.addPart, StreamSegmentList.targetId,
      StreamSegmentList.getIdForPart, StreamSegment.new, StreamSegment.addPart,
      lookupSeg, setSeg, add_sub_cancel_left]
  have h2 : (⟨[(0, ⟨0, [⟨"p1", T + 2, 2, "live"⟩], 2⟩)], 0, true, T⟩ :
        StreamSegmentList).addPart ⟨"p2", T + 4, 2, "live"⟩ =
      ⟨[(0, ⟨0, [⟨"p1", T + 2, 2, "live"⟩, ⟨"p2", T + 4, 2, "live"⟩], 4⟩)], 0, true, T⟩ := by
    norm_num [StreamSegmentList.addPart, StreamSegmentList.targetId,
      StreamSegmentList.getIdForPart, StreamSegment.new, StreamSegment.addPart,
      lookupSeg, setSeg, add_sub_cancel_left]
  have h3 : (⟨[(0, ⟨0, [⟨"p1", T + 2, 2, "live"⟩, ⟨"p2", T + 4, 2, "live"⟩], 4⟩)], 0, true, T⟩ :
        StreamSegmentList).addPart ⟨"p3", T + 6, 2, "live"⟩ =
      ⟨[(0, ⟨0, [⟨"p1", T + 2, 2, "live"⟩, ⟨"p2", T + 4, 2, "live"⟩], 4⟩),
        (1, ⟨1, [⟨"p3", T + 6, 2, "live"⟩], 2⟩)], 1, true, T⟩ := by
    norm_num [StreamSegmentList.addPart, StreamSegmentList.targetId,
      StreamSegmentList.getIdForPart, StreamSegment.new, StreamSegment.addPart,
      lookupSeg, setSeg, add_sub_cancel_left]
  have h4 : (⟨[(0, ⟨0, [⟨"p1", T + 2, 2, "live"⟩, ⟨"p2", T + 4, 2, "live"⟩], 4⟩),
        (1, ⟨1, [⟨"p3", T + 6, 2, "live"⟩], 2⟩)], 1, true, T⟩ :
        StreamSegmentList).addPart ⟨"p4", T + 8, 2, "live"⟩ =
      ⟨[(0, ⟨0, [⟨"p1", T + 2, 2, "live"⟩, ⟨"p2", T + 4, 2, "live"⟩], 4⟩),
        (1, ⟨1, [⟨"p3", T + 6, 2, "live"⟩, ⟨"p4", T + 8, 2, "live"⟩], 4⟩)], 1, true, T⟩ := by
    norm_num [StreamSegmentList.addPart, StreamSegmentList.targetId,
      StreamSegmentList.getIdForPart, StreamSegment.new, StreamSegment.addPart,
      lookupSeg, setSeg, add_sub_cancel_left]
  have h5 : (⟨[(0, ⟨0, [⟨"p1", T + 2, 2, "live"⟩, ⟨"p2", T + 4, 2, "live"⟩], 4⟩),
        (1, ⟨1, [⟨"p3", T + 6, 2, "live"⟩, ⟨"p4", T + 8, 2, "live"⟩], 4⟩)], 1, true, T⟩ :
        StreamSegmentList).addPart ⟨"p5", T + 10, 2, "live"⟩ =
      ⟨[(0, ⟨0, [⟨"p1", T + 2, 2, "live"⟩, ⟨"p2", T + 4, 2, "live"⟩], 4⟩),
        (1, ⟨1, [⟨"p3", T + 6, 2, "live"⟩, ⟨"p4", T + 8, 2, "live"⟩,
          ⟨"p5", T + 10, 2, "live"⟩], 6⟩)], 1, true, T⟩ := by
    norm_num [StreamSegmentList.addPart, StreamSegmentList.targetId,
      StreamSegmentList.getIdForPart, StreamSegment.new, StreamSegment.addPart,
      lookupSeg, setSeg, add_sub_cancel_left]
  have hfold : [(⟨"p1", T + 2, 2, "live"⟩ : StreamSegment.Part), ⟨"p2", T + 4, 2, "live"⟩,
      ⟨"p3", T + 6, 2, "live"⟩, ⟨"p4", T + 8, 2, "live"⟩, ⟨"p5", T + 10, 2, "live"⟩].foldl
      StreamSegmentList.addPart (StreamSegmentList.new T true 0) =
      ⟨[(0, ⟨0, [⟨"p1", T + 2, 2, "live"⟩, ⟨"p2", T + 4, 2, "live"⟩], 4⟩),
        (1, ⟨1, [⟨"p3", T + 6, 2, "live"⟩, ⟨"p4", T + 8, 2, "live"⟩,
          ⟨"p5", T + 10, 2, "live"⟩], 6⟩)], 1, true, T⟩ := by
    simp only [List.foldl_cons, List.foldl_nil]
    rw [h1, h2, h3, h4, h5]
  refine ⟨?_, ?_, ?_, ?_, ?_, ?_, ?_⟩ <;>
    [skip; skip; skip; skip; skip; rw [hfold]; rw [hfold]] <;>
    norm_num [StreamSegmentList.new, StreamSegmentList.getIdForPart, StreamSegment.isFull,
      lookupSeg, add_sub_cancel_left]

/-! ### Claim C6: the unsupported-part-duration anomaly -/

/-- The distinct urls of anomalous surviving parts in a buffer, starting from
an initial url set: the specification-level account of `_unsupported_parts`. -/
def unsupportedUrls (init : List String) (buffer : List StreamSegment.Part) : List String :=
  buffer.foldl
    (fun a p => if p.title = "live" ∧ p.duration ≠ 2 then insertStr a p.url else a) init

theorem length_insertStr (s : List String) (u : String) :
    s.length ≤ (insertStr s u).length := by
  by_cases h : u ∈ s <;> simp [insertStr, h]

theorem mem_insertStr (s : List String) (u u' : String) :
    u' ∈ insertStr s u ↔ u' ∈ s ∨ u' = u := by
  by_cases h : u ∈ s
  · simp only [insertStr, if_pos h]
    constructor
    · exact Or.inl
    · rintro (h' | rfl) <;> [exact h'; exact h]
  · simp [insertStr, if_neg h]

theorem nodup_insertStr (s : List String) (u : String) (h : s.Nodup) :
    (insertStr s u).Nodup := by
  by_cases hm : u ∈ s
  · simpa [insertStr, hm] using h
  · rw [insertStr, if_neg hm, List.nodup_append]
    refine ⟨h, List.nodup_singleton u, ?_⟩
    intro x hx hx1
    simp at hx1
    subst hx1
    exact hm hx

theorem length_le_unsupportedUrls :
    ∀ (buffer : List StreamSegment.Part) (init : List String),
      init.length ≤ (unsupportedUrls init buffer).length
  | [], init => le_refl _
  | p :: rest, init => by
    simp only [unsupportedUrls, List.foldl_cons]
    by_cases h : p.title = "live" ∧ p.duration ≠ 2
    · rw [if_pos h]
      exact le_trans (length_insertStr init p.url)
        (length_le_unsupportedUrls rest (insertStr init p.url))
    · rw [if_neg h]
      exact length_le_unsupportedUrls rest init

theorem mem_unsupportedUrls :
    ∀ (buffer : List StreamSegment.Part) (init : List String) (u : String),
      u ∈ unsupportedUrls init buffer ↔
        u ∈ init ∨ ∃ p ∈ buffer, p.title = "live" ∧ p.duration ≠ 2 ∧ p.url = u
  | [], init, u => by simp [unsupportedUrls]
  | p :: rest, init, u => by
    simp only [unsupportedUrls, List.foldl_cons]
    by_cases h : p.title = "live" ∧ p.duration ≠ 2
    · rw [if_pos h]
      rw [show List.foldl _ (insertStr init p.url) rest =
            unsupportedUrls (insertStr init p.url) rest from rfl,
        mem_unsupportedUrls rest (insertStr init p.url) u, mem_insertStr]
      constructor
      · rintro ((hu | rfl) | ⟨p', hp', h1, h2, h3⟩)
        · exact Or.inl hu
        · exact Or.inr ⟨p, List.mem_cons_self _ _, h.1, h.2, rfl⟩
        · exact Or.inr ⟨p', List.mem_cons_of_mem _ hp', h1, h2, h3⟩
      · rintro (hu | ⟨p', hp', h1, h2, h3⟩)
        · exact Or.inl (Or.inl hu)
        · rcases List.mem_cons.mp hp' with rfl | hp'
          · exact Or.inl (Or.inr h3.symm)
          · exact Or.inr ⟨p', hp', h1, h2, h3⟩
    · rw [if_neg h]
      rw [show List.foldl _ init rest = unsupportedUrls init rest from rfl,
        mem_unsupportedUrls rest init u]
      constructor
      · rintro (hu | ⟨p', hp', hs⟩)
        · exact Or.inl hu
        · exact Or.inr ⟨p', List.mem_cons_of_mem _ hp', hs⟩
      · rintro (hu | ⟨p', hp', h1, h2, h3⟩)
        · exact Or.inl hu
        · rcases List.mem_cons.mp hp' with rfl | hp'
          · exact absurd ⟨h1, h2⟩ h
          · exact Or.inr ⟨p', hp', h1, h2, h3⟩

theorem nodup_unsupportedUrls :
    ∀ (buffer : List StreamSegment.Part) (init : List String), init.Nodup →
      (unsupportedUrls init buffer).Nodup
  | [], _, h => h
  | p :: rest, init, h => by
    simp only [unsupportedUrls, List.foldl_cons]
    by_cases hc : p.title = "live" ∧ p.duration ≠ 2
    · rw [if_pos hc]
      exact nodup_unsupportedUrls rest (insertStr init p.url) (nodup_insertStr _ _ h)
    · rw [if_neg hc]
      exact nodup_unsupportedUrls rest init h

theorem buildGo_error_iff :
    ∀ (buffer : List StreamSegment.Part) (uns : List String) (q : StreamSegmentList),
      q.alignSegments = true → uns.length ≤ 1 →
      (buildDownloadQueueGo buffer uns q = .error () ↔
        2 ≤ (unsupportedUrls uns buffer).length)
  | [], uns, q, _, hlen => by
    simp only [buildDownloadQueueGo, unsupportedUrls, List.foldl_nil]
    constructor
    · intro h
      exact absurd h (by simp)
    · omega
  | p :: rest, uns, q, halign, hlen => by
    simp only [buildDownloadQueueGo, unsupportedUrls, List.foldl_cons]
    by_cases hT : p.title = "live"
    · rw [if_neg (show ¬p.title ≠ "live" from by simp [hT])]
      by_cases hd : p.duration = 2
      · rw [if_neg (show ¬(q.alignSegments && (p.duration != 2)) = true from by
            simp [halign, hd])]
        rw [if_neg (show ¬1 < uns.length from by omega)]
        rw [if_neg (show ¬(p.title = "live" ∧ p.duration ≠ 2) from by simp [hd])]
        rw [show List.foldl _ uns rest = unsupportedUrls uns rest from rfl]
        exact buildGo_error_iff rest uns (q.addPart p)
          (by rw [addPart_alignSegments]; exact halign) hlen
      · rw [if_pos (show (q.alignSegments && (p.duration != 2)) = true from by
            simp [halign, hd])]
        rw [if_pos (show p.title = "live" ∧ p.duration ≠ 2 from ⟨hT, hd⟩)]
        rw [show List.foldl _ (insertStr uns p.url) rest =
              unsupportedUrls (insertStr uns p.url) rest from rfl]
        by_cases h2 : 1 < (insertStr uns p.url).length
        · rw [if_pos h2]
          simp only [true_iff]
          exact le_trans (by omega) (length_le_unsupportedUrls rest (insertStr uns p.url))
        · rw [if_neg h2]
          exact buildGo_error_iff rest (insertStr uns p.url) (q.addPart p)
            (by rw [addPart_alignSegments]; exact halign) (by omega)
    · rw [if_pos (show p.title ≠ "live" from hT)]
      rw [if_neg (show ¬(p.title = "live" ∧ p.duration ≠ 2) from by simp [hT])]
      rw [show List.foldl _ uns rest = unsupportedUrls uns rest from rfl]
      exact buildGo_error_iff rest uns q halign hlen

theorem buildGo_ok_of_not_align :
    ∀ (buffer : List StreamSegment.Part) (uns : List String) (q : StreamSegmentList),
      q.alignSegments = false → uns.length ≤ 1 →
      ∃ q', buildDownloadQueueGo buffer uns q = .ok q'
  | [], uns, q, _, _ => ⟨q, rfl⟩
  | p :: rest, uns, q, halign, hlen => by
    simp only [buildDownloadQueueGo]
    by_cases hT : p.title = "live"
    · rw [if_neg (show ¬p.title ≠ "live" from by simp [hT])]
      rw [if_neg (show ¬(q.alignSegments && (p.duration != 2)) = true from by simp [halign])]
      rw [if_neg (show ¬1 < uns.length from by omega)]
      exact buildGo_ok_of_not_align rest uns (q.addPart p)
        (by rw [addPart_alignSegments]; exact halign) hlen
    · rw [if_pos (show p.title ≠ "live" from hT)]
      exact buildGo_ok_of_not_align rest uns q halign hlen

theorem two_le_length_iff_exists (l : List String) (hnd : l.Nodup) :
    2 ≤ l.length ↔ ∃ a ∈ l, ∃ b ∈ l, a ≠ b := by
  rw [← List.toFinset_card_of_nodup hnd]
  rw [show (2 ≤ l.toFinset.card) = (1 < l.toFinset.card) from rfl, Finset.one_lt_card]
  simp [List.mem_toFinset]

/-- Claim C6: one pass over the incoming part buffer raises
`UnsupportedStreamPartDuration` iff alignment mode is on and the buffer holds
two surviving (title `"live"`) parts with distinct urls whose duration
differs from 2.0; one anomalous part does not raise, and nothing raises when
alignment is off. -/
theorem c6_unsupported_duration_iff (buffer : List StreamSegment.Part)
    (q : StreamSegmentList) :
    buildDownloadQueue buffer q = .error () ↔
      q.alignSegments = true ∧
      ∃ p1 ∈ buffer, ∃ p2 ∈ buffer,
        p1.title = "live" ∧ p2.title = "live" ∧
        p1.duration ≠ 2 ∧ p2.duration ≠ 2 ∧ p1.url ≠ p2.url := by
  cases halign : q.alignSegments with
  | true =>
    rw [buildDownloadQueue, buildGo_error_iff buffer [] q halign (by simp)]
    rw [two_le_length_iff_exists _ (nodup_unsupportedUrls buffer [] List.nodup_nil)]
    simp only [true_and]
    constructor
    · rintro ⟨u1, hu1, u2, hu2, hne⟩
      rw [mem_unsupportedUrls] at hu1 hu2
      rcases hu1 with hu1 | ⟨p1, hp1, ht1, hd1, hurl1⟩
      · simp at hu1
      rcases hu2 with hu2 | ⟨p2, hp2, ht2, hd2, hurl2⟩
      · simp at hu2
      exact ⟨p1, hp1, p2, hp2, ht1, ht2, hd1, hd2, by rw [hurl1, hurl2]; exact hne⟩
    · rintro ⟨p1, hp1, p2, hp2, ht1, ht2, hd1, hd2, hne⟩
      refine ⟨p1.url, ?_, p2.url, ?_, hne⟩
      · rw [mem_unsupportedUrls]
        exact Or.inr ⟨p1, hp1, ht1, hd1, rfl⟩
      · rw [mem_unsupportedUrls]
        exact Or.inr ⟨p2, hp2, ht2, hd2, rfl⟩
  | false =>
    obtain ⟨q', hq'⟩ := buildGo_ok_of_not_align buffer [] q halign (by simp)
    rw [buildDownloadQueue, hq']
    simp

/-- Claim C7: a manifest fetch signalling not-found (broadcast ended) does
not raise to the caller: the pass returns cleanly after exactly one flush of
the trailing (possibly partial) segment at `current_id`. -/
theorem c7_not_found_flushes_once (st : Session) (q : StreamSegmentList) (s : StreamSegment)
    (hq : st.downloadQueue = some q) (hs : lookupSeg q.segments q.currentId = some s) :
    singleDownloadPass st .notFound = .ok (st, [s]) := by
  simp [singleDownloadPass, hq, StreamSegmentList.finalSegmentFlush,
    StreamSegmentList.isSegmentPresent, StreamSegmentList.getSegmentById, hs]

/-- Witness for C7 at a concrete session holding one (full) trailing
segment. -/
theorem c7_not_found_flushes_once_witness :
    singleDownloadPass ⟨[], [], some fullList⟩ .notFound =
      .ok (⟨[], [], some fullList⟩, [⟨1, fiveParts, 10⟩]) :=
  c7_not_found_flushes_once ⟨[], [], some fullList⟩ fullList ⟨1, fiveParts, 10⟩ rfl rfl

/-- Claim C9: part equality is determined solely by the `url` field, and a
re-advertised part whose url is already in the processed-parts set is not
queued again: adding the same part (by url) twice is idempotent, regardless
of its other fields. -/
theorem c9_url_identity_dedup (st : Session) (p p' q1 q2 : StreamSegment.Part)
    (h : p'.url = p.url) :
    (q1.partEq q2 = true ↔ q1.url = q2.url) ∧
    fetchAdvertisedParts (fetchAdvertisedParts st [p]) [p'] = fetchAdvertisedParts st [p] := by
  constructor
  · simp [StreamSegment.Part.partEq]
  · simp only [fetchAdvertisedParts, List.foldl_cons, List.foldl_nil]
    by_cases hmem : st.processedParts.any (fun q => q.partEq p) = true
    · rw [if_pos hmem, if_pos (by
        rw [show (fun q : StreamSegment.Part => q.partEq p') = (fun q => q.partEq p) from by
          funext q
          simp [StreamSegment.Part.partEq, h]]
        exact hmem)]
    · rw [if_neg hmem]
      rw [if_pos (show ((st.processedParts ++ [p]).any (fun q => q.partEq p')) = true from by
        simp [List.any_append, StreamSegment.Part.partEq, h])]

/-- Witness for C9: the same url re-advertised with different metadata is not
re-queued. -/
theorem c9_url_identity_dedup_witness :
    ((⟨"x", 4, 2, "live"⟩ : StreamSegment.Part).partEq ⟨"y", 4, 2, "live"⟩ = true ↔
      ("x" : String) = "y") ∧
    fetchAdvertisedParts (fetchAdvertisedParts ⟨[], [], none⟩ [⟨"u", 2, 2, "live"⟩])
        [⟨"u", 6, (3 : ℚ)/2, "ad"⟩] =
      fetchAdvertisedParts ⟨[], [], none⟩ [⟨"u", 2, 2, "live"⟩] :=
  c9_url_identity_dedup ⟨[], [], none⟩ ⟨"u", 2, 2, "live"⟩ ⟨"u", 6, (3 : ℚ)/2, "ad"⟩
    ⟨"x", 4, 2, "live"⟩ ⟨"y", 4, 2, "live"⟩ rfl

/-- Claim C2 (evaluation at the failing input): a transient network failure
on the first part makes `_download_segment` skip that part and still relocate
the buffer file — the relocated bytes are only the second part's payload,
not the concatenation of both payloads. -/
theorem c2_transient_failure_gap :
    downloadSegmentBytes
      (fun p => if p.url = "a" then PartFetchResult.exn else PartFetchResult.response 200 [4, 5])
      ⟨7, [⟨"a", 0, 2, "live"⟩, ⟨"b", 2, 2, "live"⟩], 4⟩ = some [4, 5] := by
  rfl

/-- Claim C10 (evaluation at the failing input): with a first pass of 3s
(sleeping 1s) and a second pass of 1s, the second iteration sleeps 0s —
`_loop_time` is measured from `_start_timestamp` taken once before the loop,
not per pass, so the claimed sleep of `4 - 1 = 3` seconds never happens. -/
theorem c10_sleep_measured_from_loop_start :
    startSleeps [3, 1] 0 = [1, 0] := by
  norm_num [startSleeps]

end TwitchArchiver
